import Mathlib

/-!
Shallow embedding of the CRDT replication engine of `src/nostr/crdt.rs`
(repository nostr-crdt): the operation type `CrdtOperation`, the three
replicated types `LWWRegister`, `GCounter`, `GSet`, and the manager's
ingestion (`process_event`), publish-retry and mutation entry points.

Rust's `std::collections::HashMap<String, V>` is modelled as an association
list with key-based lookup and insert-or-replace; all observations the code
makes on the map go through single-key lookup, so iteration order never
matters.  Rust `u64` values (timestamps, counter totals, increments) are
modelled as `Nat`; `u64` overflow aborts in the Rust reference
implementation (debug assertions) and is outside the model.  Fallible code
(`Result<T, Error>`) is modelled with `Except Error`, and `&mut self`
methods return the possibly-updated state next to the `Result`, so that a
call that errors can still be observed not to have touched the state.
-/

namespace NostrCrdt

/-! ## Map model for `std::collections::HashMap<String, V>` -/

abbrev AssocMap (V : Type) := List (String × V)

/-- `HashMap::get`: the value stored at `k`, if any. -/
def mapLookup {V : Type} : AssocMap V → String → Option V
  | [], _ => none
  | (k', v) :: rest, k => if k' = k then some v else mapLookup rest k

/-- `HashMap::insert`: replace the value at `k` if present, else add the binding. -/
def mapInsert {V : Type} : AssocMap V → String → V → AssocMap V
  | [], k, v => [(k, v)]
  | (k', v') :: rest, k, v =>
    if k' = k then (k', v) :: rest else (k', v') :: mapInsert rest k v

theorem mapLookup_mapInsert_self {V : Type} (m : AssocMap V) (k : String) (v : V) :
    mapLookup (mapInsert m k v) k = some v := by
  induction m with
  | nil => simp [mapInsert, mapLookup]
  | cons hd tl ih =>
    obtain ⟨k', v'⟩ := hd
    by_cases h : k' = k <;> simp [mapInsert, mapLookup, h, ih]

theorem mapLookup_mapInsert_ne {V : Type} (m : AssocMap V) (k k' : String) (v : V)
    (h : k' ≠ k) : mapLookup (mapInsert m k v) k' = mapLookup m k' := by
  induction m with
  | nil => simp [mapInsert, mapLookup, h.symm]
  | cons hd tl ih =>
    obtain ⟨k₀, v₀⟩ := hd
    by_cases h₀ : k₀ = k
    · subst h₀
      simp [mapInsert, mapLookup, h.symm]
    · simp [mapInsert, mapLookup, h₀, ih]

theorem mapInsert_lookup_eq {V : Type} (m : AssocMap V) (k : String) (v : V)
    (h : mapLookup m k = some v) : mapInsert m k v = m := by
  induction m with
  | nil => simp [mapLookup] at h
  | cons hd tl ih =>
    obtain ⟨k', v'⟩ := hd
    by_cases hk : k' = k
    · simp [mapLookup, hk] at h
      simp [mapInsert, hk, h]
    · simp [mapLookup, hk] at h
      simp [mapInsert, hk, ih h]

/-! ## Error taxonomy (`enum Error`, crdt.rs lines 7-23).
`Client` stands for the opaque wrapped `nostr_sdk::client::Error`. -/

inductive Error where
  | Client
  | InvalidOperation
  | SerializationError
  | KeysNotAvailable
deriving DecidableEq, Repr

/-! ## CRDT operation types (`enum CrdtOperation`, `enum GSetAction`, lines 27-52) -/

inductive GSetAction where
  | Add
deriving DecidableEq, Repr

inductive CrdtOperation where
  | LWWRegister (key : String) (value : String) (timestamp : Nat)
  | GCounter (key : String) (increment : Nat)
  | GSet (key : String) (value : String) (action : GSetAction)
deriving DecidableEq, Repr

/-- The key carried by an operation, common to all three variants. -/
def CrdtOperation.opKey : CrdtOperation → String
  | .LWWRegister key _ _ => key
  | .GCounter key _ => key
  | .GSet key _ _ => key

/-! ## Last-Writer-Wins register (`struct LWWRegister`, lines 60-93) -/

structure LWWRegister where
  registers : AssocMap (String × Nat)
deriving DecidableEq, Repr

/-- `LWWRegister::apply_operation` (lines 67-88): keep the stored pair when the
stored timestamp is `>=` the incoming one, otherwise insert the incoming pair;
a non-`LWWRegister` operation yields `InvalidOperation` without touching state. -/
def LWWRegister.apply_operation (self : LWWRegister) (op : CrdtOperation) :
    Except Error Unit × LWWRegister :=
  match op with
  | .LWWRegister key value timestamp =>
    match mapLookup self.registers key with
    | some (_, existing_ts) =>
      if existing_ts ≥ timestamp then
        (Except.ok (), self)
      else
        (Except.ok (), ⟨mapInsert self.registers key (value, timestamp)⟩)
    | none => (Except.ok (), ⟨mapInsert self.registers key (value, timestamp)⟩)
  | _ => (Except.error Error.InvalidOperation, self)

/-- `LWWRegister::get_value` (lines 90-92). -/
def LWWRegister.get_value (self : LWWRegister) (key : String) : Option String :=
  (mapLookup self.registers key).map (fun p => p.1)

/-! ## Grow-only counter (`struct GCounter`, lines 95-116) -/

structure GCounter where
  counters : AssocMap Nat
deriving DecidableEq, Repr

/-- `GCounter::apply_operation` (lines 102-111): `entry(key).or_insert(0)` then
`*count += increment`, i.e. store (current-or-zero + increment) at `key`. -/
def GCounter.apply_operation (self : GCounter) (op : CrdtOperation) :
    Except Error Unit × GCounter :=
  match op with
  | .GCounter key increment =>
    let count := (mapLookup self.counters key).getD 0
    (Except.ok (), ⟨mapInsert self.counters key (count + increment)⟩)
  | _ => (Except.error Error.InvalidOperation, self)

/-- `GCounter::get_value` (lines 113-115): the decimal rendering of the total. -/
def GCounter.get_value (self : GCounter) (key : String) : Option String :=
  (mapLookup self.counters key).map (fun count => toString count)

/-- The stored total for a key, defaulting to 0 when absent (the spec's
"accumulated total"). -/
def GCounter.total (self : GCounter) (key : String) : Nat :=
  (mapLookup self.counters key).getD 0

/-! ## JSON rendering used by `GSet::get_value` (`serde_json::to_string` of a
`Vec<String>`): a JSON array of JSON strings, elements in vector order. -/

/-- One lowercase hex digit, as in serde_json's escape table. -/
def hexDigitChar (n : Nat) : Char :=
  if n < 10 then Char.ofNat (48 + n) else Char.ofNat (87 + n)

/-- serde_json's escaping of a single character inside a JSON string. -/
def escapeJsonChar (c : Char) : String :=
  if c = '"' then "\\\""
  else if c = '\\' then "\\\\"
  else if c = Char.ofNat 8 then "\\b"
  else if c = Char.ofNat 9 then "\\t"
  else if c = Char.ofNat 10 then "\\n"
  else if c = Char.ofNat 12 then "\\f"
  else if c = Char.ofNat 13 then "\\r"
  else if c.toNat < 32 then
    "\\u00" ++ String.singleton (hexDigitChar (c.toNat / 16))
      ++ String.singleton (hexDigitChar (c.toNat % 16))
  else String.singleton c

/-- serde_json rendering of one `String`. -/
def encodeJsonString (s : String) : String :=
  "\"" ++ String.join (s.toList.map escapeJsonChar) ++ "\""

/-- serde_json rendering of a `Vec<String>` in vector order. -/
def encodeJsonStringList (l : List String) : String :=
  "[" ++ String.intercalate "," (l.map encodeJsonString) ++ "]"

/-! ## Grow-only set (`struct GSet`, lines 118-147) -/

structure GSet where
  sets : AssocMap (List String)
deriving DecidableEq, Repr

/-- `GSet::apply_operation` (lines 125-140): `entry(key).or_default()`, then
push `value` iff the vector does not already contain it.  `GSetAction::Add` is
the only action, so every `GSet`-variant operation matches the first arm. -/
def GSet.apply_operation (self : GSet) (op : CrdtOperation) :
    Except Error Unit × GSet :=
  match op with
  | .GSet key value .Add =>
    let set := (mapLookup self.sets key).getD []
    let set' := if value ∈ set then set else set ++ [value]
    (Except.ok (), ⟨mapInsert self.sets key set'⟩)
  | _ => (Except.error Error.InvalidOperation, self)

/-- `GSet::get_value` (lines 142-146): serde_json rendering of the vector
(serialization of a `Vec<String>` cannot fail, so `unwrap_or_default` never
takes the default). -/
def GSet.get_value (self : GSet) (key : String) : Option String :=
  (mapLookup self.sets key).map encodeJsonStringList

/-- The member collection stored for a key (empty when absent). -/
def GSet.members (self : GSet) (key : String) : List String :=
  (mapLookup self.sets key).getD []

/-! ## The manager (`struct CrdtManager`, lines 149-327)

The replicated-type fields are the state; the Nostr client, signer and keys
are external collaborators and enter only through the functions they provide:
`nip04_decrypt` for ingestion (content and sender pubkey to plaintext, or an
error), `serde_json::from_str` as `from_str` (content to operation, or an
error), and the transport's `send_event` as a per-attempt outcome function.
The manager's `crdt_kind` field is fixed at construction to `Kind::TextNote`,
Nostr kind number 1. -/

structure NostrEvent where
  kind : Nat
  pubkey : String
  content : String
deriving DecidableEq, Repr

structure CrdtManagerState where
  lww_registers : LWWRegister
  g_counters : GCounter
  g_sets : GSet
deriving DecidableEq, Repr

/-- `CrdtManager::new` (lines 161-171): all three replicated types start empty. -/
def CrdtManagerState.new : CrdtManagerState := ⟨⟨[]⟩, ⟨[]⟩, ⟨[]⟩⟩

/-- `Kind::TextNote`, the kind stored in `crdt_kind` (line 169). -/
def crdt_kind : Nat := 1

/-- The marker `process_event` looks for to decide that a content is
NIP-04-encrypted (line 179). -/
def ivMarker : String := "?iv="

/-- `str::contains(needle)` at one position: `needle` starts the list. -/
def charsStartWith : List Char → List Char → Bool
  | [], _ => true
  | _ :: _, [] => false
  | n :: ns, h :: hs => n = h && charsStartWith ns hs

/-- `str::contains(needle)`: some suffix of the haystack starts with `needle`. -/
def charsContain (needle : List Char) : List Char → Bool
  | [] => charsStartWith needle []
  | h :: hs => charsStartWith needle (h :: hs) || charsContain needle hs

/-- Rust `String::contains` as substring search. -/
def strContainsSub (hay needle : String) : Bool :=
  charsContain needle.toList hay.toList

/-- `CrdtManager::process_event` (lines 174-203).  Events of a different kind
are ignored with `Ok(())`.  A content containing `"?iv="` is decrypted (a
decryption error becomes `SerializationError`); otherwise it is used as is.
The content is then deserialized (`from_str`; failure is
`SerializationError`) and the operation dispatched on its variant to the
matching replicated type's `apply_operation`. -/
def process_event (nip04_decrypt : String → String → Option String)
    (from_str : String → Option CrdtOperation)
    (self : CrdtManagerState) (event : NostrEvent) :
    Except Error Unit × CrdtManagerState :=
  if event.kind ≠ crdt_kind then
    (Except.ok (), self)
  else
    let contentRes : Option String :=
      if strContainsSub event.content ivMarker then
        nip04_decrypt event.pubkey event.content
      else
        some event.content
    match contentRes with
    | none => (Except.error Error.SerializationError, self)
    | some content =>
      match from_str content with
      | none => (Except.error Error.SerializationError, self)
      | some op =>
        match op with
        | .LWWRegister _ _ _ =>
          let r := self.lww_registers.apply_operation op
          (r.1, { self with lww_registers := r.2 })
        | .GCounter _ _ =>
          let r := self.g_counters.apply_operation op
          (r.1, { self with g_counters := r.2 })
        | .GSet _ _ _ =>
          let r := self.g_sets.apply_operation op
          (r.1, { self with g_sets := r.2 })

/-- `max_retries` of the publish retry loop (line 228). -/
def max_retries : Nat := 3

/-- The retry loop of `publish_encrypted_crdt_operation` (lines 227-248),
written with the remaining attempt count `max_retries - retry_count` as fuel
so it computes structurally.  `send` gives each attempt's outcome (`true` is
`Ok`); between failed attempts the code only sleeps, which does not affect
state.  When every attempt fails the last error is wrapped as
`Error::Client`. -/
def sendAttempts (send : Nat → Bool) (event_id : Nat) :
    Nat → Nat → Except Error Nat
  | _, 0 => Except.error Error.Client
  | retry_count, remaining + 1 =>
    if send retry_count then Except.ok event_id
    else sendAttempts send event_id (retry_count + 1) remaining

/-- `CrdtManager::publish_encrypted_crdt_operation` (lines 206-249) after the
serialization and encryption steps (serializing these operations cannot fail;
encryption is an external collaborator and its failure path is not modelled):
the retry loop starting at `retry_count = 0`. -/
def publish_encrypted_crdt_operation (send : Nat → Bool) (event_id : Nat) :
    Except Error Nat :=
  sendAttempts send event_id 0 max_retries

/-- `CrdtManager::update_lww_register` (lines 252-269): build the operation
with the wall-clock timestamp `now`, apply locally first, then publish. -/
def update_lww_register (send : Nat → Bool) (self : CrdtManagerState)
    (key value : String) (now : Nat) (event_id : Nat) :
    Except Error Nat × CrdtManagerState :=
  let op := CrdtOperation.LWWRegister key value now
  let r := self.lww_registers.apply_operation op
  let self' := { self with lww_registers := r.2 }
  match r.1 with
  | Except.error e => (Except.error e, self')
  | Except.ok _ =>
    (publish_encrypted_crdt_operation send event_id, self')

/-- `CrdtManager::increment_counter` (lines 272-287). -/
def increment_counter (send : Nat → Bool) (self : CrdtManagerState)
    (key : String) (increment : Nat) (event_id : Nat) :
    Except Error Nat × CrdtManagerState :=
  let op := CrdtOperation.GCounter key increment
  let r := self.g_counters.apply_operation op
  let self' := { self with g_counters := r.2 }
  match r.1 with
  | Except.error e => (Except.error e, self')
  | Except.ok _ =>
    (publish_encrypted_crdt_operation send event_id, self')

/-- `CrdtManager::add_to_set` (lines 290-303). -/
def add_to_set (send : Nat → Bool) (self : CrdtManagerState)
    (key value : String) (event_id : Nat) :
    Except Error Nat × CrdtManagerState :=
  let op := CrdtOperation.GSet key value GSetAction.Add
  let r := self.g_sets.apply_operation op
  let self' := { self with g_sets := r.2 }
  match r.1 with
  | Except.error e => (Except.error e, self')
  | Except.ok _ =>
    (publish_encrypted_crdt_operation send event_id, self')

/-- `CrdtManager::get_register_value` (lines 306-308). -/
def get_register_value (self : CrdtManagerState) (key : String) : Option String :=
  self.lww_registers.get_value key

/-- `CrdtManager::get_counter_value` (lines 311-313). -/
def get_counter_value (self : CrdtManagerState) (key : String) : Option String :=
  self.g_counters.get_value key

/-- `CrdtManager::get_set_value` (lines 316-318). -/
def get_set_value (self : CrdtManagerState) (key : String) : Option String :=
  self.g_sets.get_value key

/-! ## Derived operations used to state invariants over histories -/

/-- Apply a sequence of counter-increment operations in order. -/
def applyIncrements : List (String × Nat) → GCounter → GCounter
  | [], st => st
  | (k, a) :: rest, st => applyIncrements rest ((st.apply_operation (.GCounter k a)).2)

/-- The sum of the amounts of the increments in a history that target `k`,
each history entry counted exactly once. -/
def sumFor : List (String × Nat) → String → Nat
  | [], _ => 0
  | (k1, a) :: rest, k => (if k1 = k then a else 0) + sumFor rest k

/-! ## Helper lemmas -/

theorem lww_apply_operation_ok (st : LWWRegister) (k v : String) (ts : Nat) :
    (st.apply_operation (.LWWRegister k v ts)).1 = Except.ok () := by
  cases hl : mapLookup st.registers k with
  | none => simp [LWWRegister.apply_operation, hl]
  | some p =>
    obtain ⟨w, ets⟩ := p
    by_cases hge : ets ≥ ts <;> simp [LWWRegister.apply_operation, hl, hge]

theorem lww_apply_lookup_newer (st : LWWRegister) (k v : String) (ts : Nat)
    (h : ∀ w ets, mapLookup st.registers k = some (w, ets) → ets < ts) :
    mapLookup (st.apply_operation (.LWWRegister k v ts)).2.registers k = some (v, ts) := by
  cases hl : mapLookup st.registers k with
  | none => simp [LWWRegister.apply_operation, hl, mapLookup_mapInsert_self]
  | some p =>
    obtain ⟨w, ets⟩ := p
    have hlt := h w ets hl
    have hge : ¬ ets ≥ ts := by omega
    simp [LWWRegister.apply_operation, hl, hge, mapLookup_mapInsert_self]

theorem gcounter_total_apply (st : GCounter) (k : String) (a : Nat) (k' : String) :
    GCounter.total (st.apply_operation (.GCounter k a)).2 k' =
    GCounter.total st k' + (if k = k' then a else 0) := by
  by_cases h : k = k'
  · subst h
    simp [GCounter.apply_operation, GCounter.total, mapLookup_mapInsert_self]
  · simp [GCounter.apply_operation, GCounter.total,
      mapLookup_mapInsert_ne _ _ _ _ (Ne.symm h), h]

theorem gset_apply_mem (st : GSet) (k v : String) :
    v ∈ GSet.members (st.apply_operation (.GSet k v .Add)).2 k := by
  by_cases hv : v ∈ (mapLookup st.sets k).getD []
  · simp [GSet.apply_operation, GSet.members, mapLookup_mapInsert_self, hv]
  · simp [GSet.apply_operation, GSet.members, mapLookup_mapInsert_self, hv]

theorem applyIncrements_total (ops : List (String × Nat)) (st : GCounter) (k : String) :
    GCounter.total (applyIncrements ops st) k = GCounter.total st k + sumFor ops k := by
  induction ops generalizing st with
  | nil => simp [applyIncrements, sumFor]
  | cons hd rest ih =>
    obtain ⟨k1, a⟩ := hd
    show GCounter.total (applyIncrements rest ((st.apply_operation (.GCounter k1 a)).2)) k = _
    rw [ih, gcounter_total_apply, sumFor, Nat.add_assoc]

theorem sendAttempts_all_fail (send : Nat → Bool) (event_id rc fuel : Nat)
    (h : ∀ n, n < rc + fuel → send n = false) :
    sendAttempts send event_id rc fuel = Except.error Error.Client := by
  induction fuel generalizing rc with
  | zero => rfl
  | succ m ih =>
    have h0 : send rc = false := h rc (by omega)
    show (if send rc then Except.ok event_id
          else sendAttempts send event_id (rc + 1) m) = _
    rw [h0]
    simp only [Bool.false_eq_true, if_false]
    exact ih (rc + 1) (fun n hn => h n (by omega))

/-! ## Claims -/

/-- Claim C2: for every `LWWRegister` operation, `apply_operation` returns
success; it stores `(value, timestamp)` at `key` when the key is absent or the
incoming timestamp is strictly greater than the stored one, and on an exact
tie or an older timestamp the whole state (hence the stored pair) is
unchanged, so the operation already present wins. -/
theorem C2_lww_apply_characterization (st : LWWRegister) (k v : String) (ts : Nat) :
    (st.apply_operation (.LWWRegister k v ts)).1 = Except.ok () ∧
    (mapLookup st.registers k = none →
      mapLookup (st.apply_operation (.LWWRegister k v ts)).2.registers k = some (v, ts)) ∧
    (∀ w ets, mapLookup st.registers k = some (w, ets) → ets < ts →
      mapLookup (st.apply_operation (.LWWRegister k v ts)).2.registers k = some (v, ts)) ∧
    (∀ w ets, mapLookup st.registers k = some (w, ets) → ¬ ets < ts →
      (st.apply_operation (.LWWRegister k v ts)).2 = st) := by
  refine ⟨lww_apply_operation_ok st k v ts, ?_, ?_, ?_⟩
  · intro hn
    simp [LWWRegister.apply_operation, hn, mapLookup_mapInsert_self]
  · intro w ets hs hlt
    have hge : ¬ ets ≥ ts := by omega
    simp [LWWRegister.apply_operation, hs, hge, mapLookup_mapInsert_self]
  · intro w ets hs hnlt
    have hge : ets ≥ ts := by omega
    simp [LWWRegister.apply_operation, hs, hge]

theorem C2_lww_apply_characterization_witness :
    mapLookup (LWWRegister.apply_operation ⟨[("k", ("a", 5))]⟩
      (.LWWRegister "k" "b" 7)).2.registers "k" = some ("b", 7) ∧
    (LWWRegister.apply_operation ⟨[("k", ("b", 7))]⟩
      (.LWWRegister "k" "c" 7)).2 = (⟨[("k", ("b", 7))]⟩ : LWWRegister) := by
  constructor
  · exact (C2_lww_apply_characterization ⟨[("k", ("a", 5))]⟩ "k" "b" 7).2.2.1
      "a" 5 (by decide) (by decide)
  · exact (C2_lww_apply_characterization ⟨[("k", ("b", 7))]⟩ "k" "c" 7).2.2.2
      "b" 7 (by decide) (by decide)

/-- Claim C4: applying `(k, "ValueA", 100)` then `(k, "ValueB", 200)` to one
fresh LWW register, and the same two operations in the other order to another
fresh register, both make `get_value k` return `"ValueB"`. -/
theorem C4_lww_convergence (k : String) :
    ((LWWRegister.apply_operation
        ((LWWRegister.apply_operation ⟨[]⟩ (.LWWRegister k "ValueA" 100)).2)
        (.LWWRegister k "ValueB" 200)).2).get_value k = some "ValueB" ∧
    ((LWWRegister.apply_operation
        ((LWWRegister.apply_operation ⟨[]⟩ (.LWWRegister k "ValueB" 200)).2)
        (.LWWRegister k "ValueA" 100)).2).get_value k = some "ValueB" := by
  constructor <;>
    simp [LWWRegister.apply_operation, LWWRegister.get_value, mapLookup, mapInsert]

/-- Claim C5: each replicated type's `apply_operation`, fed an operation of a
variant that does not match the type, returns `InvalidOperation` and leaves
the state completely unchanged (every `GSet`-variant operation carries the
only action `Add`, so the six cases below are all the mismatches). -/
theorem C5_variant_mismatch_rejection :
    (∀ (st : LWWRegister) (k : String) (inc : Nat),
       st.apply_operation (.GCounter k inc) = (Except.error Error.InvalidOperation, st)) ∧
    (∀ (st : LWWRegister) (k v : String) (a : GSetAction),
       st.apply_operation (.GSet k v a) = (Except.error Error.InvalidOperation, st)) ∧
    (∀ (st : GCounter) (k v : String) (ts : Nat),
       st.apply_operation (.LWWRegister k v ts) = (Except.error Error.InvalidOperation, st)) ∧
    (∀ (st : GCounter) (k v : String) (a : GSetAction),
       st.apply_operation (.GSet k v a) = (Except.error Error.InvalidOperation, st)) ∧
    (∀ (st : GSet) (k v : String) (ts : Nat),
       st.apply_operation (.LWWRegister k v ts) = (Except.error Error.InvalidOperation, st)) ∧
    (∀ (st : GSet) (k : String) (inc : Nat),
       st.apply_operation (.GCounter k inc) = (Except.error Error.InvalidOperation, st)) := by
  refine ⟨?_, ?_, ?_, ?_, ?_, ?_⟩ <;> intros <;> rfl

/-- Claim C3: applying the identical operation twice in a row equals applying
it once, at the level of the full state, for the LWW register and the G-Set;
for the G-Counter, applying the identical increment twice leaves the total for
its key larger by `2 * increment` (duplicate delivery double-counts). -/
theorem C3_idempotence_and_double_count :
    (∀ (st : LWWRegister) (k v : String) (ts : Nat),
       ((st.apply_operation (.LWWRegister k v ts)).2.apply_operation
          (.LWWRegister k v ts)).2 =
       (st.apply_operation (.LWWRegister k v ts)).2) ∧
    (∀ (st : GSet) (k v : String),
       ((st.apply_operation (.GSet k v .Add)).2.apply_operation (.GSet k v .Add)).2 =
       (st.apply_operation (.GSet k v .Add)).2) ∧
    (∀ (st : GCounter) (k : String) (inc : Nat),
       GCounter.total ((st.apply_operation (.GCounter k inc)).2.apply_operation
          (.GCounter k inc)).2 k =
       GCounter.total st k + 2 * inc) := by
  refine ⟨?_, ?_, ?_⟩
  · intro st k v ts
    cases hl : mapLookup st.registers k with
    | none => simp [LWWRegister.apply_operation, hl, mapLookup_mapInsert_self]
    | some p =>
      obtain ⟨w, ets⟩ := p
      by_cases hge : ets ≥ ts
      · simp [LWWRegister.apply_operation, hl, hge]
      · simp [LWWRegister.apply_operation, hl, hge, mapLookup_mapInsert_self]
  · intro st k v
    have step : ∀ (m : AssocMap (List String)) (l : List String), v ∈ l →
        (GSet.apply_operation ⟨mapInsert m k l⟩ (.GSet k v .Add)).2 = ⟨mapInsert m k l⟩ := by
      intro m l hv
      simp only [GSet.apply_operation, mapLookup_mapInsert_self, Option.getD_some, hv,
        if_pos]
      exact congrArg GSet.mk
        (mapInsert_lookup_eq _ _ _ (mapLookup_mapInsert_self m k l))
    by_cases hv : v ∈ (mapLookup st.sets k).getD []
    · have h1 : (GSet.apply_operation st (.GSet k v .Add)).2 =
          ⟨mapInsert st.sets k ((mapLookup st.sets k).getD [])⟩ := by
        simp [GSet.apply_operation, hv]
      rw [h1, step _ _ hv]
    · have h1 : (GSet.apply_operation st (.GSet k v .Add)).2 =
          ⟨mapInsert st.sets k ((mapLookup st.sets k).getD [] ++ [v])⟩ := by
        simp [GSet.apply_operation, hv]
      rw [h1, step _ _ (by simp)]
  · intro st k inc
    rw [gcounter_total_apply, gcounter_total_apply]
    have hik : (if k = k then inc else 0) = inc := if_pos rfl
    rw [hik]
    omega

/-- Claim C6: for every history of well-formed increment operations applied to
a fresh G-Counter, each key's stored total equals the sum of the amounts of
the increments applied to that key, each application counted exactly once; and
one more apply never decreases any key's total. -/
theorem C6_gcounter_total_invariant :
    (∀ (ops : List (String × Nat)) (k : String),
       GCounter.total (applyIncrements ops ⟨[]⟩) k = sumFor ops k) ∧
    (∀ (st : GCounter) (k : String) (a : Nat) (k' : String),
       GCounter.total st k' ≤
       GCounter.total ((st.apply_operation (.GCounter k a)).2) k') := by
  constructor
  · intro ops k
    have h := applyIncrements_total ops ⟨[]⟩ k
    simpa [GCounter.total, mapLookup] using h
  · intro st k a k'
    rw [gcounter_total_apply]
    exact Nat.le_add_right _ _

/-- Claim C9: `apply_operation` with an operation carrying key `k` leaves the
stored entry of every key other than `k` unchanged on all three replicated
types — for the LWW register the full `(value, timestamp)` pair, for the
counter the stored total, for the set the stored member vector (`get_value`
takes the state by shared reference in the source and is modelled as a pure
read, so it cannot mutate). -/
theorem C9_apply_frame (stL : LWWRegister) (stC : GCounter) (stS : GSet)
    (op : CrdtOperation) (k' : String) (h : k' ≠ op.opKey) :
    mapLookup (stL.apply_operation op).2.registers k' = mapLookup stL.registers k' ∧
    mapLookup (stC.apply_operation op).2.counters k' = mapLookup stC.counters k' ∧
    mapLookup (stS.apply_operation op).2.sets k' = mapLookup stS.sets k' := by
  cases op with
  | LWWRegister k v ts =>
    simp only [CrdtOperation.opKey] at h
    refine ⟨?_, rfl, rfl⟩
    cases hl : mapLookup stL.registers k with
    | none =>
      simp [LWWRegister.apply_operation, hl, mapLookup_mapInsert_ne _ _ _ _ h]
    | some p =>
      obtain ⟨w, ets⟩ := p
      by_cases hge : ets ≥ ts <;>
        simp [LWWRegister.apply_operation, hl, hge,
          mapLookup_mapInsert_ne _ _ _ _ h]
  | GCounter k a =>
    simp only [CrdtOperation.opKey] at h
    refine ⟨rfl, ?_, rfl⟩
    simp [GCounter.apply_operation, mapLookup_mapInsert_ne _ _ _ _ h]
  | GSet k v act =>
    cases act
    simp only [CrdtOperation.opKey] at h
    refine ⟨rfl, rfl, ?_⟩
    simp [GSet.apply_operation, mapLookup_mapInsert_ne _ _ _ _ h]

/-- Claim C1 fails on the code for G-Set: `get_value` renders the member
vector in insertion order, so adding `"a"` then `"b"` under one key reads
`["a","b"]` while the opposite order reads `["b","a"]` — two different
strings on a fresh replica. -/
theorem C1_counterexample_gset_read_order :
    ¬ (((GSet.apply_operation
          ((GSet.apply_operation ⟨[]⟩ (.GSet "k" "a" .Add)).2)
          (.GSet "k" "b" .Add)).2).get_value "k" =
       ((GSet.apply_operation
          ((GSet.apply_operation ⟨[]⟩ (.GSet "k" "b" .Add)).2)
          (.GSet "k" "a" .Add)).2).get_value "k") := by decide

/-- Claim C1 as amended: on a fresh replica, for every pair of well-formed
operations of the matching variant and every key, the two application orders
give the same `get_value` read for the G-Counter; for the G-Set they give
member collections with exactly the same membership for every key, and the
`get_value` strings themselves agree except when two distinct elements are
added under the same key (where only insertion order differs). -/
theorem C1_amended_commutativity :
    (∀ (k1 : String) (a1 : Nat) (k2 : String) (a2 : Nat) (k : String),
       ((GCounter.apply_operation
           ((GCounter.apply_operation ⟨[]⟩ (.GCounter k1 a1)).2)
           (.GCounter k2 a2)).2).get_value k =
       ((GCounter.apply_operation
           ((GCounter.apply_operation ⟨[]⟩ (.GCounter k2 a2)).2)
           (.GCounter k1 a1)).2).get_value k) ∧
    (∀ (k1 v1 k2 v2 k x : String),
       (x ∈ GSet.members ((GSet.apply_operation
              ((GSet.apply_operation ⟨[]⟩ (.GSet k1 v1 .Add)).2)
              (.GSet k2 v2 .Add)).2) k ↔
        x ∈ GSet.members ((GSet.apply_operation
              ((GSet.apply_operation ⟨[]⟩ (.GSet k2 v2 .Add)).2)
              (.GSet k1 v1 .Add)).2) k)) ∧
    (∀ (k1 v1 k2 v2 k : String), k1 ≠ k2 ∨ v1 = v2 →
       ((GSet.apply_operation
           ((GSet.apply_operation ⟨[]⟩ (.GSet k1 v1 .Add)).2)
           (.GSet k2 v2 .Add)).2).get_value k =
       ((GSet.apply_operation
           ((GSet.apply_operation ⟨[]⟩ (.GSet k2 v2 .Add)).2)
           (.GSet k1 v1 .Add)).2).get_value k) := by
  refine ⟨?_, ?_, ?_⟩
  · intro k1 a1 k2 a2 k
    by_cases h12 : k1 = k2
    · subst h12
      simp [GCounter.apply_operation, GCounter.get_value, mapLookup, mapInsert,
        Nat.add_comm]
    · have h21 : ¬ k2 = k1 := fun h => h12 h.symm
      by_cases hk1 : k1 = k
      · subst hk1
        simp [GCounter.apply_operation, GCounter.get_value, mapLookup, mapInsert,
          h12, h21]
      · by_cases hk2 : k2 = k
        · subst hk2
          simp [GCounter.apply_operation, GCounter.get_value, mapLookup, mapInsert,
            h12, h21, hk1]
        · simp [GCounter.apply_operation, GCounter.get_value, mapLookup, mapInsert,
            h12, h21, hk1, hk2]
  · intro k1 v1 k2 v2 k x
    by_cases h12 : k1 = k2
    · subst h12
      by_cases hv : v2 = v1
      · subst hv
        exact Iff.rfl
      · have hv' : ¬ v1 = v2 := fun h => hv h.symm
        by_cases hk : k1 = k
        · subst hk
          simp [GSet.apply_operation, GSet.members, mapLookup, mapInsert,
            hv, hv']
          tauto
        · simp [GSet.apply_operation, GSet.members, mapLookup, mapInsert,
            hv, hv', hk]
    · have h21 : ¬ k2 = k1 := fun h => h12 h.symm
      by_cases hk1 : k1 = k
      · subst hk1
        simp [GSet.apply_operation, GSet.members, mapLookup, mapInsert, h12, h21]
      · by_cases hk2 : k2 = k
        · subst hk2
          simp [GSet.apply_operation, GSet.members, mapLookup, mapInsert,
            h12, h21, hk1]
        · simp [GSet.apply_operation, GSet.members, mapLookup, mapInsert,
            h12, h21, hk1, hk2]
  · intro k1 v1 k2 v2 k hcase
    by_cases h12 : k1 = k2
    · have hv : v1 = v2 := hcase.resolve_left (not_not_intro h12)
      subst h12
      subst hv
      rfl
    · have h21 : ¬ k2 = k1 := fun h => h12 h.symm
      by_cases hk1 : k1 = k
      · subst hk1
        simp [GSet.apply_operation, GSet.get_value, mapLookup, mapInsert, h12, h21]
      · by_cases hk2 : k2 = k
        · subst hk2
          simp [GSet.apply_operation, GSet.get_value, mapLookup, mapInsert,
            h12, h21, hk1]
        · simp [GSet.apply_operation, GSet.get_value, mapLookup, mapInsert,
            h12, h21, hk1, hk2]

theorem C1_amended_commutativity_witness :
    (("a" : String) ≠ "b" ∨ ("x" : String) = "y") ∧
    ((GSet.apply_operation
        ((GSet.apply_operation ⟨[]⟩ (.GSet "a" "x" .Add)).2)
        (.GSet "b" "y" .Add)).2).get_value "a" =
    ((GSet.apply_operation
        ((GSet.apply_operation ⟨[]⟩ (.GSet "b" "y" .Add)).2)
        (.GSet "a" "x" .Add)).2).get_value "a" := by
  refine ⟨Or.inl (by decide), ?_⟩
  exact C1_amended_commutativity.2.2 "a" "x" "b" "y" "a" (Or.inl (by decide))

theorem C9_apply_frame_witness :
    ("a" : String) ≠ (CrdtOperation.GCounter "b" 2).opKey ∧
    mapLookup (GCounter.apply_operation ⟨[("a", 7)]⟩ (.GCounter "b" 2)).2.counters "a" =
      mapLookup (GCounter.mk [("a", 7)]).counters "a" := by
  refine ⟨by decide, ?_⟩
  exact (C9_apply_frame ⟨[]⟩ ⟨[("a", 7)]⟩ ⟨[]⟩ (.GCounter "b" 2) "a" (by decide)).2.1

/-- Claim C7: `process_event` returns success and leaves every replicated
type's state untouched when the event's kind differs from the CRDT kind; and
when the kind matches but decryption fails, or deserialization fails (of the
decrypted or of the plain content), it returns `SerializationError` with all
state untouched. -/
theorem C7_process_event_drop_and_errors
    (nip04_decrypt : String → String → Option String)
    (from_str : String → Option CrdtOperation)
    (st : CrdtManagerState) (event : NostrEvent) :
    (event.kind ≠ crdt_kind →
       process_event nip04_decrypt from_str st event = (Except.ok (), st)) ∧
    (event.kind = crdt_kind → strContainsSub event.content ivMarker = true →
       nip04_decrypt event.pubkey event.content = none →
       process_event nip04_decrypt from_str st event =
         (Except.error Error.SerializationError, st)) ∧
    (event.kind = crdt_kind → strContainsSub event.content ivMarker = true →
       ∀ d, nip04_decrypt event.pubkey event.content = some d → from_str d = none →
       process_event nip04_decrypt from_str st event =
         (Except.error Error.SerializationError, st)) ∧
    (event.kind = crdt_kind → strContainsSub event.content ivMarker = false →
       from_str event.content = none →
       process_event nip04_decrypt from_str st event =
         (Except.error Error.SerializationError, st)) := by
  refine ⟨?_, ?_, ?_, ?_⟩
  · intro h
    simp [process_event, h]
  · intro hk hiv hd
    simp [process_event, hk, hiv, hd]
  · intro hk hiv d hd hf
    simp [process_event, hk, hiv, hd, hf]
  · intro hk hiv hf
    simp [process_event, hk, hiv, hf]

theorem C7_process_event_drop_and_errors_witness :
    process_event (fun _ _ => none) (fun _ => none) CrdtManagerState.new
      ⟨2, "pk", "c"⟩ = (Except.ok (), CrdtManagerState.new) ∧
    process_event (fun _ _ => none) (fun _ => none) CrdtManagerState.new
      ⟨1, "pk", "x?iv=y"⟩ = (Except.error Error.SerializationError, CrdtManagerState.new) := by
  constructor
  · exact (C7_process_event_drop_and_errors (fun _ _ => none) (fun _ => none)
      CrdtManagerState.new ⟨2, "pk", "c"⟩).1 (by decide)
  · exact (C7_process_event_drop_and_errors (fun _ _ => none) (fun _ => none)
      CrdtManagerState.new ⟨1, "pk", "x?iv=y"⟩).2.1 rfl (by decide) rfl

/-- Claim C10: `process_event` decides that a content is encrypted by testing
whether it contains the substring `"?iv="` anywhere, so a plaintext content
that is a valid serialized operation (`from_str` succeeds on it) but happens
to contain `"?iv="` is routed to decryption, and when decryption fails the
valid operation is rejected with `SerializationError` instead of applied. -/
theorem C10_iv_substring_routing
    (nip04_decrypt : String → String → Option String)
    (from_str : String → Option CrdtOperation)
    (st : CrdtManagerState) (event : NostrEvent) (op : CrdtOperation)
    (hk : event.kind = crdt_kind)
    (hiv : strContainsSub event.content ivMarker = true)
    (_hparse : from_str event.content = some op)
    (hdec : nip04_decrypt event.pubkey event.content = none) :
    process_event nip04_decrypt from_str st event =
      (Except.error Error.SerializationError, st) := by
  simp [process_event, hk, hiv, hdec]

theorem C10_iv_substring_routing_witness :
    process_event (fun _ _ => none)
      (fun s => if s = "x?iv=y" then some (.GSet "k" "v" GSetAction.Add) else none)
      CrdtManagerState.new ⟨1, "pk", "x?iv=y"⟩ =
      (Except.error Error.SerializationError, CrdtManagerState.new) :=
  C10_iv_substring_routing (fun _ _ => none)
    (fun s => if s = "x?iv=y" then some (.GSet "k" "v" GSetAction.Add) else none)
    CrdtManagerState.new ⟨1, "pk", "x?iv=y"⟩ (.GSet "k" "v" GSetAction.Add)
    rfl (by decide) (by simp) rfl

/-- Claim C8 fails on the code for `update_lww_register` when the wall clock
is behind the stored timestamp: with the stored pair `("old", 1000)` and a
call carrying timestamp 500 whose every publish attempt fails, the local
apply succeeds, the call returns the transport error, and yet the subsequent
local read still returns `"old"`, not the new value `"new"`. -/
theorem C8_counterexample_stale_timestamp_read :
    ((LWWRegister.apply_operation ⟨[("k", ("old", 1000))]⟩
        (.LWWRegister "k" "new" 500)).1 = Except.ok ()) ∧
    ((update_lww_register (fun _ => false) ⟨⟨[("k", ("old", 1000))]⟩, ⟨[]⟩, ⟨[]⟩⟩
        "k" "new" 500 7).1 = Except.error Error.Client) ∧
    (get_register_value (update_lww_register (fun _ => false)
        ⟨⟨[("k", ("old", 1000))]⟩, ⟨[]⟩, ⟨[]⟩⟩ "k" "new" 500 7).2 "k" = some "old") ∧
    (("old" : String) ≠ "new") := by
  exact ⟨rfl, rfl, by decide, by decide⟩

/-- Claim C8 as amended: when every one of the `max_retries` publish attempts
fails, each mutation call returns the transport error while the local state
already holds the result of applying the operation; a subsequent local read
returns the new value for `increment_counter` and `add_to_set`
unconditionally, and for `update_lww_register` whenever the call's timestamp
is strictly greater than any timestamp stored for the key. -/
theorem C8_amended_publish_failure_partial_state (send : Nat → Bool)
    (hsend : ∀ n, n < max_retries → send n = false)
    (st : CrdtManagerState) (key value : String) (now : Nat)
    (increment : Nat) (event_id : Nat) :
    ((update_lww_register send st key value now event_id).1 =
        Except.error Error.Client ∧
     (update_lww_register send st key value now event_id).2.lww_registers =
        (st.lww_registers.apply_operation (.LWWRegister key value now)).2 ∧
     ((∀ w ets, mapLookup st.lww_registers.registers key = some (w, ets) → ets < now) →
        get_register_value (update_lww_register send st key value now event_id).2 key =
          some value)) ∧
    ((increment_counter send st key increment event_id).1 =
        Except.error Error.Client ∧
     get_counter_value (increment_counter send st key increment event_id).2 key =
        some (toString (GCounter.total st.g_counters key + increment))) ∧
    ((add_to_set send st key value event_id).1 = Except.error Error.Client ∧
     value ∈ GSet.members (add_to_set send st key value event_id).2.g_sets key) := by
  have hpub : publish_encrypted_crdt_operation send event_id = Except.error Error.Client :=
    sendAttempts_all_fail send event_id 0 max_retries (fun n hn => hsend n (by omega))
  refine ⟨⟨?_, ?_, ?_⟩, ⟨?_, ?_⟩, ⟨?_, ?_⟩⟩
  · simp [update_lww_register, lww_apply_operation_ok, hpub]
  · simp [update_lww_register, lww_apply_operation_ok]
  · intro hts
    have hlook := lww_apply_lookup_newer st.lww_registers key value now hts
    simp [update_lww_register, lww_apply_operation_ok, get_register_value,
      LWWRegister.get_value, hlook]
  · simp [increment_counter, GCounter.apply_operation, hpub]
  · simp [increment_counter, GCounter.apply_operation, get_counter_value,
      GCounter.get_value, GCounter.total, mapLookup_mapInsert_self]
  · simp [add_to_set, GSet.apply_operation, hpub]
  · have hmem := gset_apply_mem st.g_sets key value
    simpa [add_to_set] using hmem

theorem C8_amended_publish_failure_partial_state_witness :
    (update_lww_register (fun _ => false) CrdtManagerState.new "k" "v" 1 7).1 =
      Except.error Error.Client ∧
    get_register_value (update_lww_register (fun _ => false)
      CrdtManagerState.new "k" "v" 1 7).2 "k" = some "v" ∧
    get_counter_value (increment_counter (fun _ => false)
      CrdtManagerState.new "k" 2 7).2 "k" =
      some (toString (GCounter.total CrdtManagerState.new.g_counters "k" + 2)) ∧
    "v" ∈ GSet.members (add_to_set (fun _ => false)
      CrdtManagerState.new "k" "v" 7).2.g_sets "k" := by
  have h := C8_amended_publish_failure_partial_state (fun _ => false)
    (fun n _ => rfl) CrdtManagerState.new "k" "v" 1 2 7
  refine ⟨h.1.1, h.1.2.2 ?_, h.2.1.2, h.2.2.2⟩
  intro w ets hw
  simp [CrdtManagerState.new, mapLookup] at hw

end NostrCrdt
